import Mathlib

/-!
Formal model of the Resource Allocation & Council Escalation Engine of the
Thermal-Equity-Orchestrator repository, translated from
`src/c42_resource_integration.tsx` (class `DemoResourceDistributorAgent`);
`src/resource_distributor_agent.tsx` (class `ResourceDistributorAgent`) shares
the same `calculateAllocations`, `calculateConfidence` and `executeAllocations`
algorithms.  Monetary quantities are rationals; wall-clock timestamps
(`Date.now()`) are passed as an explicit `now : ℕ` parameter; JavaScript
objects/Maps become association lists in insertion order.
-/

/-- `DonorProfile`: a participant offering capacity (source lines 88–95). -/
structure DonorProfile where
  id : String
  wallet : ℚ
  preferences : List (String × ℚ)
  allocationBudget : ℚ
  lastActivity : ℕ
  trustLevel : ℕ
  deriving Repr, DecidableEq

/-- `CauseProfile`: a participant requesting funding (source lines 111–119). -/
structure CauseProfile where
  id : String
  name : String
  need : ℚ
  priority : ℚ
  received : ℚ
  totalReceived : ℚ
  lastUpdate : ℕ
  deriving Repr, DecidableEq

/-- An advisor's council insight: recommendations are a donor → cause → amount
matrix (source `generateEthicsInsight` etc., `handleCouncilInsight`). -/
structure Insight where
  agent : String
  reasoning : String
  recommendations : List (String × List (String × ℚ))
  confidence : ℚ
  deriving Repr, DecidableEq

/-- An executed funds movement (source lines 396–404); the `reasoning` string
is reduced to the `councilSynthesized` flag that selects it. -/
structure AllocationEvent where
  timestamp : ℕ
  donorId : String
  causeId : String
  amount : ℚ
  confidence : ℚ
  councilSynthesized : Bool
  deriving Repr, DecidableEq

/-- The whisper notifications sent during a commit (source lines 409–428). -/
inductive Notification where
  | allocationExecuted (donorId causeId : String) (amount remainingWallet : ℚ)
      (councilReviewed : Bool)
  | fundingReceived (causeId donorId : String) (amount totalReceived needRemaining : ℚ)
  deriving Repr, DecidableEq

/-- The `allocation_summary` broadcast payload (source lines 436–447). -/
structure AllocationSummary where
  totalAllocated : ℚ
  allocationCount : ℕ
  donorsParticipated : ℕ
  causesSupported : ℕ
  councilReviewed : Bool
  deriving Repr, DecidableEq

/-- Mutable fields of `DemoResourceDistributorAgent` (source lines 60–65). -/
structure AgentState where
  donors : List DonorProfile
  causes : List CauseProfile
  allocationHistory : List AllocationEvent
  isProcessing : Bool
  councilActive : Bool
  councilInsights : List Insight
  deriving Repr, DecidableEq

/-- An allocation matrix `allocations[donorId][causeId] = amount`. -/
abbrev Alloc := List (String × List (String × ℚ))

/-- `donor.preferences[causeId] || 0`. -/
def prefWeight (d : DonorProfile) (causeId : String) : ℚ :=
  (d.preferences.lookup causeId).getD 0

/-- `Map.get`-style lookup of a donor by id. -/
def findDonor (donors : List DonorProfile) (id : String) : Option DonorProfile :=
  donors.find? (fun d => d.id == id)

/-- `Map.get`-style lookup of a cause by id. -/
def findCause (causes : List CauseProfile) (id : String) : Option CauseProfile :=
  causes.find? (fun c => c.id == id)

/-- In-place mutation of the donor stored under `id`. -/
def updateDonor (donors : List DonorProfile) (id : String)
    (f : DonorProfile → DonorProfile) : List DonorProfile :=
  donors.map (fun d => if d.id == id then f d else d)

/-- In-place mutation of the cause stored under `id`. -/
def updateCause (causes : List CauseProfile) (id : String)
    (f : CauseProfile → CauseProfile) : List CauseProfile :=
  causes.map (fun c => if c.id == id then f c else c)

/-- `Map.set`: replace in place when the key exists, else append. -/
def setDonor (donors : List DonorProfile) (d : DonorProfile) : List DonorProfile :=
  if donors.any (fun x => x.id == d.id) then
    donors.map (fun x => if x.id == d.id then d else x)
  else donors ++ [d]

/-- `Map.set` for causes. -/
def setCause (causes : List CauseProfile) (c : CauseProfile) : List CauseProfile :=
  if causes.any (fun x => x.id == c.id) then
    causes.map (fun x => if x.id == c.id then c else x)
  else causes ++ [c]

/-- The causes a donor cares about: `donor.preferences[cause.id] &&
donor.preferences[cause.id] > 0` (source lines 184–186; a missing or zero
weight is falsy, so the test is equivalent to `prefWeight > 0`). -/
def relevantCauses (d : DonorProfile) (causes : List CauseProfile) : List CauseProfile :=
  causes.filter (fun c => decide (0 < prefWeight d c.id))

/-- `preferenceWeight * priorityWeight * needWeight` (source lines 191–194). -/
def weightedScore (d : DonorProfile) (c : CauseProfile) : ℚ :=
  prefWeight d c.id * c.priority * min c.need d.allocationBudget

/-- `totalWeightedPriority` (source lines 190–195). -/
def totalWeightedPriority (d : DonorProfile) (causes : List CauseProfile) : ℚ :=
  ((relevantCauses d causes).map (weightedScore d)).sum

/-- One donor's row of `calculateAllocations` (source lines 184–213): empty
when the donor has no relevant cause or the total weighted score is ≤ 0;
otherwise each relevant cause gets `budget × proportion` capped at
`need − received`, kept only when positive. -/
def donorRow (d : DonorProfile) (causes : List CauseProfile) : List (String × ℚ) :=
  let rel := relevantCauses d causes
  if rel.isEmpty then []
  else
    let twp := totalWeightedPriority d causes
    if twp ≤ 0 then []
    else
      rel.filterMap (fun c =>
        let alloc := min (d.allocationBudget * (weightedScore d c / twp))
          (c.need - c.received)
        if 0 < alloc then some (c.id, alloc) else none)

/-- `calculateAllocations` (source lines 176–217): donors with budget ≤ 0 are
skipped; every other donor contributes a (possibly empty) row. -/
def calculateAllocations (donors : List DonorProfile) (causes : List CauseProfile) :
    Alloc :=
  donors.filterMap (fun d =>
    if d.allocationBudget ≤ 0 then none else some (d.id, donorRow d causes))

/-- Total amount proposed to one cause across donors:
`donorAllocations[cause.id] || 0` summed (source lines 226–228). -/
def causeReceivedIn (alloc : Alloc) (causeId : String) : ℚ :=
  (alloc.map (fun p => (p.2.lookup causeId).getD 0)).sum

/-- `calculateConfidence` (source lines 219–234). -/
def calculateConfidence (causes : List CauseProfile) (alloc : Alloc) : ℚ :=
  let totalNeed := (causes.map (·.need)).sum
  let totalMet := (causes.map (fun c => min (causeReceivedIn alloc c.id) c.need)).sum
  if 0 < totalNeed then totalMet / totalNeed else 1

/-- Total proposed allocation volume (source lines 237–239). -/
def totalAllocationVolume (alloc : Alloc) : ℚ :=
  (alloc.map (fun p => (p.2.map (·.2)).sum)).sum

/-- `detectMajorReallocation` (source lines 236–244): true when some single
(donor, cause) amount strictly exceeds 30% of the total volume. -/
def detectMajorReallocation (alloc : Alloc) : Bool :=
  alloc.any (fun p => p.2.any (fun q => decide (totalAllocationVolume alloc * (3/10) < q.2)))

/-- `insight.recommendations[donorId]?.[causeId]` as written in the source
filter (source line 365). -/
def recLookup (ins : Insight) (donorId causeId : String) : Option ℚ :=
  (ins.recommendations.lookup donorId).bind (fun row => row.lookup causeId)

/-- The recommendations collected for one cell (source lines 364–366): the
source tests `insight.recommendations[donorId] &&
insight.recommendations[donorId][causeId]`, so a cell that is missing — or
whose value is exactly 0, which is falsy — is dropped. -/
def cellRecommendations (insights : List Insight) (donorId causeId : String) : List ℚ :=
  insights.filterMap (fun i =>
    match recLookup i donorId causeId with
    | some v => if v = 0 then none else some v
    | none => none)

/-- `synthesizeCouncilDecision` (source lines 354–378). -/
def synthesizeCouncilDecision (proposed : Alloc) (insights : List Insight) : Alloc :=
  proposed.map (fun p =>
    (p.1, p.2.map (fun q =>
      let recs := cellRecommendations insights p.1 q.1
      if recs.isEmpty then (q.1, q.2)
      else (q.1, (recs.sum / (recs.length : ℚ)) * (7/10) + q.2 * (3/10)))))

/-- Accumulator of the commit loops of `executeAllocations`. -/
structure CreditAcc where
  state : AgentState
  events : List AllocationEvent
  notes : List Notification
  deriving Repr, DecidableEq

/-- One `(causeId, amount)` step of the inner commit loop (source lines
387–428): skip when the cause is gone or `amount ≤ 0`; otherwise debit the
donor's wallet and budget, credit the cause, record the event and send the
two whisper notifications.  `alloc` is the full batch matrix, used only as
the argument of the `calculateConfidence` call recorded in the event. -/
def execPair (alloc : Alloc) (now : ℕ) (donorId : String) (acc : CreditAcc)
    (q : String × ℚ) : CreditAcc :=
  match findDonor acc.state.donors donorId, findCause acc.state.causes q.1 with
  | some donor, some cause =>
    if q.2 ≤ 0 then acc
    else
      let st := acc.state
      let donors' := updateDonor st.donors donorId (fun d =>
        { d with wallet := d.wallet - q.2, allocationBudget := d.allocationBudget - q.2 })
      let causes' := updateCause st.causes q.1 (fun c =>
        { c with received := c.received + q.2, totalReceived := c.totalReceived + q.2 })
      let ev : AllocationEvent :=
        { timestamp := now, donorId := donorId, causeId := q.1, amount := q.2,
          confidence := calculateConfidence st.causes alloc,
          councilSynthesized := st.councilActive }
      let n1 : Notification :=
        .allocationExecuted donorId q.1 q.2 (donor.wallet - q.2) st.councilActive
      let n2 : Notification :=
        .fundingReceived q.1 donorId q.2 (cause.totalReceived + q.2)
          (max 0 (cause.need - (cause.received + q.2)))
      let st' : AgentState :=
        { st with
          donors := donors'
          causes := causes'
          allocationHistory := st.allocationHistory ++ [ev] }
      { state := st', events := acc.events ++ [ev], notes := acc.notes ++ [n1, n2] }
  | _, _ => acc

/-- One donor row of the commit loop (source lines 383–430): the whole row is
skipped when the donor is no longer present. -/
def execRow (alloc : Alloc) (now : ℕ) (acc : CreditAcc)
    (p : String × List (String × ℚ)) : CreditAcc :=
  match findDonor acc.state.donors p.1 with
  | none => acc
  | some _ => p.2.foldl (execPair alloc now p.1) acc

/-- The crediting loops over an arbitrary batch, with the confidence-context
matrix `ctx` held fixed (in the source both coincide: the loops iterate over
the same `allocations` object that is also passed to `calculateConfidence`). -/
def creditAllocationsCtx (st : AgentState) (ctx batch : Alloc) (now : ℕ) : CreditAcc :=
  batch.foldl (execRow ctx now) ⟨st, [], []⟩

/-- The crediting phase of `executeAllocations` (source lines 381–430): the
state reached after every (donor, cause) amount of the batch has been
committed, before received-this-cycle is reset. -/
def creditAllocations (st : AgentState) (alloc : Alloc) (now : ℕ) : CreditAcc :=
  creditAllocationsCtx st alloc alloc now

/-- Result of a full `executeAllocations` call. -/
structure ExecResult where
  state : AgentState
  events : List AllocationEvent
  notes : List Notification
  summary : AllocationSummary
  deriving Repr, DecidableEq

/-- `executeAllocations` over an arbitrary batch with a fixed
confidence-context matrix: credit every pair, reset every cause's
received-this-cycle to zero, and broadcast the summary. -/
def executeAllocationsCtx (st : AgentState) (ctx batch : Alloc) (now : ℕ) : ExecResult :=
  let acc := creditAllocationsCtx st ctx batch now
  let st2 := { acc.state with
    causes := acc.state.causes.map (fun c => { c with received := 0 }) }
  { state := st2, events := acc.events, notes := acc.notes,
    summary :=
      { totalAllocated := (acc.events.map (·.amount)).sum,
        allocationCount := acc.events.length,
        donorsParticipated := ((acc.events.map (·.donorId)).eraseDups).length,
        causesSupported := ((acc.events.map (·.causeId)).eraseDups).length,
        councilReviewed := st2.councilActive } }

/-- `executeAllocations` (source lines 380–448): credit every pair, reset
every cause's received-this-cycle to zero, and broadcast the summary. -/
def executeAllocations (st : AgentState) (alloc : Alloc) (now : ℕ) : ExecResult :=
  let acc := creditAllocations st alloc now
  let st2 := { acc.state with
    causes := acc.state.causes.map (fun c => { c with received := 0 }) }
  { state := st2, events := acc.events, notes := acc.notes,
    summary :=
      { totalAllocated := (acc.events.map (·.amount)).sum,
        allocationCount := acc.events.length,
        donorsParticipated := ((acc.events.map (·.donorId)).eraseDups).length,
        causesSupported := ((acc.events.map (·.causeId)).eraseDups).length,
        councilReviewed := st2.councilActive } }

/-- Observable outcome of one `evaluateAllocations` cycle: `councilConvened`
carries the `council:resource_context` broadcast payload (proposal and
confidence) that accompanies the convene-plus-insight-request path. -/
inductive EvalOutcome where
  | skipped
  | executed (events : List AllocationEvent)
  | councilConvened (proposed : Alloc) (confidence : ℚ)
  deriving Repr, DecidableEq

/-- State change of `conveneCouncil` (source lines 246–268): mark the council
active and clear collected insights; the broadcast itself is the
`councilConvened` outcome. -/
def conveneCouncil (st : AgentState) : AgentState :=
  { st with councilActive := true, councilInsights := [] }

/-- `evaluateAllocations` (source lines 157–174): reentrancy/emptiness guard,
then either direct execution or council escalation depending on the 0.7
confidence threshold and the concentration check. -/
def evaluateAllocations (st : AgentState) (now : ℕ) : AgentState × EvalOutcome :=
  if st.isProcessing || st.donors.isEmpty || st.causes.isEmpty then (st, .skipped)
  else
    let alloc := calculateAllocations st.donors st.causes
    let conf := calculateConfidence st.causes alloc
    if conf < 7/10 || detectMajorReallocation alloc then
      (conveneCouncil st, .councilConvened alloc conf)
    else
      let r := executeAllocations st alloc now
      (r.state, .executed r.events)

/-- Payload of an `offer_capacity` message; `allocationPercentage` defaults
to 0.15 and `preferences` to the empty object (source line 86). -/
structure CapacityOfferMsg where
  donorId : String
  wallet : ℚ
  allocationPercentage : Option ℚ
  preferences : List (String × ℚ)
  deriving Repr, DecidableEq

/-- The fraction actually used: the given one or the 0.15 default. -/
def offerFraction (msg : CapacityOfferMsg) : ℚ :=
  msg.allocationPercentage.getD (3/20)

/-- The donor record built by `handleCapacityOffer` (source lines 88–95):
no clamping is applied to the fraction. -/
def mkDonor (msg : CapacityOfferMsg) (now : ℕ) : DonorProfile :=
  { id := msg.donorId, wallet := msg.wallet, preferences := msg.preferences,
    allocationBudget := msg.wallet * offerFraction msg,
    lastActivity := now, trustLevel := 75 }

/-- The registration step of `handleCapacityOffer` (source line 97). -/
def recordCapacityOffer (st : AgentState) (msg : CapacityOfferMsg) (now : ℕ) :
    AgentState :=
  { st with donors := setDonor st.donors (mkDonor msg now) }

/-- `handleCapacityOffer` (source lines 85–106): upsert the donor, then
re-evaluate (the acknowledgment whisper is not modelled). -/
def handleCapacityOffer (st : AgentState) (msg : CapacityOfferMsg) (now : ℕ) :
    AgentState × EvalOutcome :=
  evaluateAllocations (recordCapacityOffer st msg now) now

/-- Payload of a `register_need` message; `priority` defaults to 0.6
(source line 109). -/
structure NeedRegistrationMsg where
  causeId : String
  name : Option String
  need : ℚ
  priority : Option ℚ
  deriving Repr, DecidableEq

/-- The cause record built by `handleNeedRegistration` (source lines
111–119): `name || causeId` (an empty name is falsy), priority clamped
to [0, 1]. -/
def mkCause (msg : NeedRegistrationMsg) (now : ℕ) : CauseProfile :=
  { id := msg.causeId,
    name := match msg.name with
      | some n => if n = "" then msg.causeId else n
      | none => msg.causeId,
    need := msg.need,
    priority := max 0 (min 1 (msg.priority.getD (3/5))),
    received := 0, totalReceived := 0, lastUpdate := now }

/-- `handleNeedRegistration` (source lines 108–130): upsert the cause, then
re-evaluate. -/
def handleNeedRegistration (st : AgentState) (msg : NeedRegistrationMsg) (now : ℕ) :
    AgentState × EvalOutcome :=
  evaluateAllocations { st with causes := setCause st.causes (mkCause msg now) } now

/-- JS object spread `\x7b ...old, ...new \x7d`: existing keys keep their
position with overridden values, new keys are appended. -/
def mergePrefs (old new : List (String × ℚ)) : List (String × ℚ) :=
  old.map (fun p =>
    match new.lookup p.1 with
    | some v => (p.1, v)
    | none => p) ++
  new.filter (fun q => (old.lookup q.1).isNone)

/-- `handlePreferenceUpdate` (source lines 132–139): no effect on an unknown
donor; otherwise merge preferences and re-evaluate. -/
def handlePreferenceUpdate (st : AgentState) (donorId : String)
    (prefs : List (String × ℚ)) (now : ℕ) : AgentState × EvalOutcome :=
  match findDonor st.donors donorId with
  | none => (st, .skipped)
  | some _ =>
    let donors' := updateDonor st.donors donorId
      (fun d => { d with preferences := mergePrefs d.preferences prefs })
    evaluateAllocations { st with donors := donors' } now

/-- `handleCouncilInsight` (source lines 141–155): discard when no council is
active; otherwise accumulate, and on the third insight synthesize against a
freshly computed proposal, execute it, then deactivate and clear. -/
def handleCouncilInsight (st : AgentState) (ins : Insight) (now : ℕ) :
    AgentState × Option (List AllocationEvent) :=
  if st.councilActive = false then (st, none)
  else
    let insights := st.councilInsights ++ [ins]
    if 3 ≤ insights.length then
      let alloc := calculateAllocations st.donors st.causes
      let synth := synthesizeCouncilDecision alloc insights
      let r := executeAllocations { st with councilInsights := insights } synth now
      ({ r.state with councilActive := false, councilInsights := [] }, some r.events)
    else ({ st with councilInsights := insights }, none)

/-- Feed a stream of `council_insight` messages one after the other,
counting how many of them trigger an execution. -/
def runInsights (st : AgentState) (inss : List Insight) (now : ℕ) : AgentState × ℕ :=
  match inss with
  | [] => (st, 0)
  | i :: t =>
    let r := handleCouncilInsight st i now
    let rest := runInsights r.1 t now
    (rest.1, (if r.2.isSome then 1 else 0) + rest.2)

/-- The externally triggered operations of the engine. -/
inductive Op where
  | offer (msg : CapacityOfferMsg)
  | needReg (msg : NeedRegistrationMsg)
  | prefUpdate (donorId : String) (prefs : List (String × ℚ))
  | insight (ins : Insight)
  deriving Repr, DecidableEq

/-- One engine step: dispatch an incoming message to its handler. -/
def step (st : AgentState) (op : Op) (now : ℕ) : AgentState :=
  match op with
  | .offer msg => (handleCapacityOffer st msg now).1
  | .needReg msg => (handleNeedRegistration st msg now).1
  | .prefUpdate d p => (handlePreferenceUpdate st d p now).1
  | .insight i => (handleCouncilInsight st i now).1

/-! ### Generic helper lemmas -/

theorem lookup_mem {β : Type} {l : List (String × β)} {k : String} {v : β}
    (h : l.lookup k = some v) : (k, v) ∈ l := by
  induction l with
  | nil => simp [List.lookup] at h
  | cons p t ih =>
    rcases p with ⟨k', b⟩
    rw [List.lookup] at h
    cases hbe : (k == k') with
    | true =>
      rw [hbe] at h
      simp only [Option.some.injEq] at h
      subst h
      have : k = k' := by simpa using hbe
      subst this
      exact List.mem_cons_self _ _
    | false =>
      rw [hbe] at h
      exact List.mem_cons_of_mem _ (ih h)

theorem getD_lookup_nonneg {l : List (String × ℚ)} {k : String}
    (h : ∀ p ∈ l, 0 ≤ p.2) : 0 ≤ (l.lookup k).getD 0 := by
  cases hl : l.lookup k with
  | none => simp
  | some v => simpa using h _ (lookup_mem hl)

theorem sum_filterMap_le {l : List CauseProfile}
    {f : CauseProfile → Option (String × ℚ)} {g : CauseProfile → ℚ}
    (hf : ∀ c ∈ l, ∀ p, f c = some p → p.2 ≤ g c)
    (hg : ∀ c ∈ l, 0 ≤ g c) :
    ((l.filterMap f).map (·.2)).sum ≤ (l.map g).sum := by
  induction l with
  | nil => simp
  | cons c t ih =>
    have iht := ih (fun x hx => hf x (List.mem_cons_of_mem _ hx))
      (fun x hx => hg x (List.mem_cons_of_mem _ hx))
    cases hc : f c with
    | none =>
      simp only [List.filterMap_cons, hc, List.map_cons, List.sum_cons]
      have : (0 : ℚ) ≤ g c := hg c (List.mem_cons_self _ _)
      linarith
    | some p =>
      simp only [List.filterMap_cons, hc, List.map_cons, List.sum_cons]
      have h1 : p.2 ≤ g c := hf c (List.mem_cons_self _ _) p hc
      linarith

/-- Sum of one donor's proposed row is bounded by that donor's budget. -/
theorem donorRow_sum_le (d : DonorProfile) (causes : List CauseProfile)
    (hB : 0 ≤ d.allocationBudget)
    (hneed : ∀ c ∈ causes, 0 ≤ c.need)
    (hprio : ∀ c ∈ causes, 0 ≤ c.priority) :
    ((donorRow d causes).map (·.2)).sum ≤ d.allocationBudget := by
  unfold donorRow
  by_cases hrel : (relevantCauses d causes).isEmpty
  · simp [hrel]
    exact hB
  · simp only [hrel, if_false, Bool.false_eq_true]
    by_cases htwp : totalWeightedPriority d causes ≤ 0
    · simp [htwp]
      exact hB
    · simp only [htwp, if_false]
      push_neg at htwp
      have htne : totalWeightedPriority d causes ≠ 0 := ne_of_gt htwp
      have hwnn : ∀ c ∈ relevantCauses d causes, 0 ≤ weightedScore d c := by
        intro c hc
        have hc' := List.mem_filter.mp hc
        have hp : 0 < prefWeight d c.id := by simpa using hc'.2
        have : 0 ≤ min c.need d.allocationBudget :=
          le_min (hneed c hc'.1) hB
        exact mul_nonneg (mul_nonneg (le_of_lt hp) (hprio c hc'.1)) this
      have hkey :
          (((relevantCauses d causes).filterMap (fun c =>
            let alloc := min (d.allocationBudget * (weightedScore d c /
              totalWeightedPriority d causes)) (c.need - c.received)
            if 0 < alloc then some (c.id, alloc) else none)).map (·.2)).sum ≤
          ((relevantCauses d causes).map (fun c =>
            d.allocationBudget * (weightedScore d c /
              totalWeightedPriority d causes))).sum := by
        apply sum_filterMap_le
        · intro c _ p hp
          simp only at hp
          split at hp
          · rename_i halloc
            cases hp
            exact min_le_left _ _
          · exact absurd hp (by simp)
        · intro c hc
          exact mul_nonneg hB (div_nonneg (hwnn c hc) (le_of_lt htwp))
      have hsum :
          ((relevantCauses d causes).map (fun c =>
            d.allocationBudget * (weightedScore d c /
              totalWeightedPriority d causes))).sum = d.allocationBudget := by
        have hcongr :
            (relevantCauses d causes).map (fun c =>
              d.allocationBudget * (weightedScore d c /
                totalWeightedPriority d causes)) =
            (relevantCauses d causes).map (fun c =>
              (d.allocationBudget / totalWeightedPriority d causes) *
                weightedScore d c) := by
          apply List.map_congr_left
          intro c _
          rw [div_mul_eq_mul_div, mul_div_assoc]
        rw [hcongr, List.sum_map_mul_left]
        have : ((relevantCauses d causes).map (weightedScore d)).sum =
            totalWeightedPriority d causes := rfl
        rw [this, div_mul_cancel₀ _ htne]
      calc _ ≤ _ := hkey
        _ = d.allocationBudget := hsum

/-- **C4** For every ledger state whose needs, budgets, priorities and
preference weights are non-negative, the proposal matrix returned by
`calculateAllocations` gives every donor a row whose total is at most that
donor's `allocationBudget`. -/
theorem C4_calculateAllocations_within_budget
    (donors : List DonorProfile) (causes : List CauseProfile)
    (hneed : ∀ c ∈ causes, 0 ≤ c.need)
    (hprio : ∀ c ∈ causes, 0 ≤ c.priority)
    (hbudget : ∀ d ∈ donors, 0 ≤ d.allocationBudget)
    (_hpref : ∀ d ∈ donors, ∀ p ∈ d.preferences, 0 ≤ p.2) :
    ∀ p ∈ calculateAllocations donors causes,
      ∃ d ∈ donors, p.1 = d.id ∧ (p.2.map (·.2)).sum ≤ d.allocationBudget := by
  intro p hp
  unfold calculateAllocations at hp
  rcases List.mem_filterMap.mp hp with ⟨d, hd, hsome⟩
  split at hsome
  · exact absurd hsome (by simp)
  · refine ⟨d, hd, ?_, ?_⟩
    · cases hsome
      rfl
    · cases hsome
      exact donorRow_sum_le d causes (hbudget d hd) hneed hprio

/-- **C5** `calculateConfidence` lies in `[0, 1]`, equals the met-need /
total-need ratio when total need is positive, and equals 1 when total need
is zero — for non-negative needs and a non-negative allocation matrix. -/
theorem C5_calculateConfidence_bounds (causes : List CauseProfile) (alloc : Alloc)
    (hneed : ∀ c ∈ causes, 0 ≤ c.need)
    (halloc : ∀ p ∈ alloc, ∀ q ∈ p.2, 0 ≤ q.2) :
    0 ≤ calculateConfidence causes alloc ∧
    calculateConfidence causes alloc ≤ 1 ∧
    (0 < (causes.map (·.need)).sum →
      calculateConfidence causes alloc =
        (causes.map (fun c => min (causeReceivedIn alloc c.id) c.need)).sum /
          (causes.map (·.need)).sum) ∧
    ((causes.map (·.need)).sum = 0 → calculateConfidence causes alloc = 1) := by
  have hrecv : ∀ cid : String, 0 ≤ causeReceivedIn alloc cid := by
    intro cid
    apply List.sum_nonneg
    intro x hx
    rcases List.mem_map.mp hx with ⟨p, hp, rfl⟩
    exact getD_lookup_nonneg (fun q hq => halloc p hp q hq)
  have hmet0 : 0 ≤ (causes.map (fun c => min (causeReceivedIn alloc c.id) c.need)).sum := by
    apply List.sum_nonneg
    intro x hx
    rcases List.mem_map.mp hx with ⟨c, hc, rfl⟩
    exact le_min (hrecv c.id) (hneed c hc)
  have hmetle : (causes.map (fun c => min (causeReceivedIn alloc c.id) c.need)).sum ≤
      (causes.map (·.need)).sum :=
    List.sum_le_sum (fun c _ => min_le_right _ _)
  unfold calculateConfidence
  by_cases hpos : 0 < (causes.map (·.need)).sum
  · rw [if_pos hpos]
    exact ⟨div_nonneg hmet0 (le_of_lt hpos), div_le_one_of_le₀ hmetle (le_of_lt hpos),
      fun _ => rfl, fun h0 => absurd h0 (ne_of_gt hpos)⟩
  · rw [if_neg hpos]
    exact ⟨zero_le_one, le_refl 1, fun h => absurd h hpos, fun _ => rfl⟩

/-! ### Concrete sample data (spec §8 scenarios and counterexample states) -/

/-- Scenario donor: wallet 150, budget 30 (fraction 0.2), preference
climate → 0.8. -/
def aliceD : DonorProfile :=
  { id := "alice", wallet := 150, preferences := [("climate", 4/5)],
    allocationBudget := 30, lastActivity := 0, trustLevel := 75 }

/-- Scenario cause: need 45, priority 0.9. -/
def climateC : CauseProfile :=
  { id := "climate", name := "climate", need := 45, priority := 9/10,
    received := 0, totalReceived := 0, lastUpdate := 0 }

/-- A donor with budget 10 and full preference for cause `x`. -/
def donorA : DonorProfile :=
  { id := "A", wallet := 100, preferences := [("x", 1)],
    allocationBudget := 10, lastActivity := 0, trustLevel := 75 }

/-- A second identical donor. -/
def donorB : DonorProfile := { donorA with id := "B" }

/-- A cause needing exactly 10. -/
def causeX : CauseProfile :=
  { id := "x", name := "x", need := 10, priority := 1,
    received := 0, totalReceived := 0, lastUpdate := 0 }

/-- Two donors able to give 10 each to a cause that needs only 10. -/
def overSubState : AgentState :=
  { donors := [donorA, donorB], causes := [causeX], allocationHistory := [],
    isProcessing := false, councilActive := false, councilInsights := [] }

/-- The empty initial agent state. -/
def emptyState : AgentState :=
  { donors := [], causes := [], allocationHistory := [], isProcessing := false,
    councilActive := false, councilInsights := [] }

/-- Witness input for **C4**/**C5**. -/
def scenarioState : AgentState :=
  { donors := [aliceD], causes := [climateC], allocationHistory := [],
    isProcessing := false, councilActive := false, councilInsights := [] }

theorem C4_witness :
    ((∀ c ∈ [climateC], 0 ≤ c.need) ∧ (∀ c ∈ [climateC], 0 ≤ c.priority) ∧
      (∀ d ∈ [aliceD], 0 ≤ d.allocationBudget) ∧
      (∀ d ∈ [aliceD], ∀ p ∈ d.preferences, 0 ≤ p.2)) ∧
    (∀ p ∈ calculateAllocations [aliceD] [climateC],
      ∃ d ∈ [aliceD], p.1 = d.id ∧ (p.2.map (·.2)).sum ≤ d.allocationBudget) := by
  refine ⟨⟨?_, ?_, ?_, ?_⟩, ?_⟩
  · intro c hc; simp only [List.mem_singleton] at hc; subst hc; norm_num [climateC]
  · intro c hc; simp only [List.mem_singleton] at hc; subst hc; norm_num [climateC]
  · intro d hd; simp only [List.mem_singleton] at hd; subst hd; norm_num [aliceD]
  · intro d hd p hp; simp only [List.mem_singleton] at hd; subst hd
    simp only [aliceD, List.mem_singleton] at hp; subst hp; norm_num
  · apply C4_calculateAllocations_within_budget
    · intro c hc; simp only [List.mem_singleton] at hc; subst hc; norm_num [climateC]
    · intro c hc; simp only [List.mem_singleton] at hc; subst hc; norm_num [climateC]
    · intro d hd; simp only [List.mem_singleton] at hd; subst hd; norm_num [aliceD]
    · intro d hd p hp; simp only [List.mem_singleton] at hd; subst hd
      simp only [aliceD, List.mem_singleton] at hp; subst hp; norm_num

theorem C5_witness :
    ((∀ c ∈ [climateC], 0 ≤ c.need) ∧
      (∀ p ∈ ([("alice", [("climate", (30 : ℚ))])] : Alloc), ∀ q ∈ p.2, 0 ≤ q.2)) ∧
    (0 ≤ calculateConfidence [climateC] [("alice", [("climate", 30)])] ∧
      calculateConfidence [climateC] [("alice", [("climate", 30)])] ≤ 1 ∧
      (0 < (([climateC]).map (·.need)).sum →
        calculateConfidence [climateC] [("alice", [("climate", 30)])] =
          (([climateC]).map (fun c =>
            min (causeReceivedIn [("alice", [("climate", 30)])] c.id) c.need)).sum /
            (([climateC]).map (·.need)).sum) ∧
      ((([climateC]).map (·.need)).sum = 0 →
        calculateConfidence [climateC] [("alice", [("climate", 30)])] = 1)) := by
  have hneed : ∀ c ∈ [climateC], 0 ≤ c.need := by
    intro c hc; simp only [List.mem_singleton] at hc; subst hc; norm_num [climateC]
  have halloc : ∀ p ∈ ([("alice", [("climate", (30 : ℚ))])] : Alloc), ∀ q ∈ p.2, 0 ≤ q.2 := by
    intro p hp q hq
    simp only [List.mem_singleton] at hp; subst hp
    simp only [List.mem_singleton] at hq; subst hq; norm_num
  exact ⟨⟨hneed, halloc⟩, C5_calculateConfidence_bounds [climateC] _ hneed halloc⟩

/-- **C1** (amended) The `need − received` cap on committed amounts is
enforced per (donor, cause) at proposal time: every amount in a matrix
produced by `calculateAllocations` is at most its cause's outstanding
`need − received`.  At commit time `executeAllocations` applies no per-cause
cap, so several donors targeting the same cause can drive
received-this-cycle beyond need (see the counterexample). -/
theorem C1_proposal_cap (donors : List DonorProfile) (causes : List CauseProfile) :
    ∀ p ∈ calculateAllocations donors causes, ∀ q ∈ p.2,
      ∃ c ∈ causes, c.id = q.1 ∧ q.2 ≤ c.need - c.received := by
  intro p hp q hq
  unfold calculateAllocations at hp
  rcases List.mem_filterMap.mp hp with ⟨d, _hd, hsome⟩
  split at hsome
  · exact absurd hsome (by simp)
  · cases hsome
    simp only [donorRow] at hq
    split at hq
    · exact absurd hq (by simp)
    · split at hq
      · exact absurd hq (by simp)
      · rcases List.mem_filterMap.mp hq with ⟨c, hc, hfc⟩
        split at hfc
        · cases hfc
          exact ⟨c, (List.mem_filter.mp hc).1, rfl, min_le_right _ _⟩
        · exact absurd hfc (by simp)

/-- **C1** counterexample: with two donors each able and willing to give 10
to a cause that needs only 10, `calculateAllocations` proposes 10 from each,
and after `executeAllocations` credits the whole batch (the moment of
commit, before the cycle reset) the cause's received-this-cycle is 20,
which exceeds its need of 10 — the claimed commit-time cap does not exist. -/
theorem C1_counterexample :
    calculateAllocations overSubState.donors overSubState.causes =
      [("A", [("x", 10)]), ("B", [("x", 10)])] ∧
    ((creditAllocations overSubState
        (calculateAllocations overSubState.donors overSubState.causes) 0).state.causes.map
      (fun c => (c.received, c.need))) = [(20, 10)] ∧
    ¬ ((20 : ℚ) ≤ 10) :=
  ⟨by with_unfolding_all rfl, by with_unfolding_all rfl, by norm_num⟩

theorem C1_witness :
    (("A", [("x", (10 : ℚ))]) ∈
        calculateAllocations overSubState.donors overSubState.causes ∧
      ("x", (10 : ℚ)) ∈ [("x", (10 : ℚ))]) ∧
    ∃ c ∈ overSubState.causes, c.id = "x" ∧ (10 : ℚ) ≤ c.need - c.received := by
  have hcalc : calculateAllocations overSubState.donors overSubState.causes =
      [("A", [("x", 10)]), ("B", [("x", 10)])] := by with_unfolding_all rfl
  have hmem : ("A", [("x", (10 : ℚ))]) ∈
      calculateAllocations overSubState.donors overSubState.causes := by
    rw [hcalc]; exact List.mem_cons_self _ _
  exact ⟨⟨hmem, List.mem_cons_self _ _⟩,
    C1_proposal_cap overSubState.donors overSubState.causes _ hmem ("x", 10)
      (List.mem_cons_self _ _)⟩

/-! ### C3: council synthesis blend -/

/-- The per-cell blended value exactly as the claim words it: the mean runs
over every insight whose recommendation matrix contains the cell — a
recorded value of 0 counts as a recommendation of zero, only an omitted
cell abstains. -/
def claimCellValueZeroCounts (insights : List Insight) (donorId causeId : String)
    (original : ℚ) : ℚ :=
  let recs := insights.filterMap (fun i => recLookup i donorId causeId)
  if recs.isEmpty then original
  else (7/10) * (recs.sum / (recs.length : ℚ)) + (3/10) * original

/-- The per-cell blended value with the amended abstention rule: an insight
abstains on a cell its matrix omits, and also on a cell it records as
exactly 0. -/
def claimCellValueNonzero (insights : List Insight) (donorId causeId : String)
    (original : ℚ) : ℚ :=
  let recs := insights.filterMap (fun i =>
    (recLookup i donorId causeId).bind (fun v => if v = 0 then none else some v))
  if recs.isEmpty then original
  else (7/10) * (recs.sum / (recs.length : ℚ)) + (3/10) * original

theorem forall2_map_self {α β : Type} {R : α → β → Prop} {l : List α} {f : α → β}
    (h : ∀ a ∈ l, R a (f a)) : List.Forall₂ R l (l.map f) := by
  induction l with
  | nil => exact List.Forall₂.nil
  | cons a t ih =>
    exact List.Forall₂.cons (h a (List.mem_cons_self _ _))
      (ih (fun x hx => h x (List.mem_cons_of_mem _ hx)))

theorem cellRecommendations_eq_bind (insights : List Insight) (d c : String) :
    cellRecommendations insights d c =
      insights.filterMap (fun i =>
        (recLookup i d c).bind (fun v => if v = 0 then none else some v)) := by
  unfold cellRecommendations
  congr 1
  funext i
  cases recLookup i d c <;> rfl

/-- **C3** (amended) `synthesizeCouncilDecision` maps each cell of the
proposal to `0.7 × mean + 0.3 × original` over the recommendations for that
cell, where an insight abstains when its matrix omits the cell **or records
exactly 0 for it** (the source's truthiness filter), and leaves the original
value when every insight abstains. -/
theorem C3_synthesize_blend (proposed : Alloc) (insights : List Insight) :
    List.Forall₂ (fun p p' => p'.1 = p.1 ∧
      List.Forall₂ (fun q q' => q'.1 = q.1 ∧
        q'.2 = claimCellValueNonzero insights p.1 q.1 q.2) p.2 p'.2)
      proposed (synthesizeCouncilDecision proposed insights) := by
  unfold synthesizeCouncilDecision
  apply forall2_map_self
  intro p _
  refine ⟨rfl, ?_⟩
  apply forall2_map_self
  intro q _
  constructor
  · by_cases hempty : (cellRecommendations insights p.1 q.1).isEmpty <;> simp [hempty]
  · unfold claimCellValueNonzero
    rw [← cellRecommendations_eq_bind]
    by_cases hempty : (cellRecommendations insights p.1 q.1).isEmpty
    · simp [hempty]
    · simp only [hempty, if_false, Bool.false_eq_true]
      ring

/-- **C3** counterexample: one insight explicitly recommends 0 for the only
cell of the proposal.  The claim's formula (an omitted cell abstains, a
present value — including 0 — is averaged) yields
`0.7 × 0 + 0.3 × 10 = 3`, but the source's truthiness filter treats the 0
as absent and returns the original 10 unchanged. -/
theorem C3_counterexample :
    synthesizeCouncilDecision [("a", [("x", 10)])]
        [⟨"Ethics-Agent", "", [("a", [("x", 0)])], 1⟩] = [("a", [("x", 10)])] ∧
    claimCellValueZeroCounts [⟨"Ethics-Agent", "", [("a", [("x", 0)])], 1⟩] "a" "x" 10 = 3 ∧
    ((3 : ℚ) ≠ 10) :=
  ⟨by with_unfolding_all rfl, by with_unfolding_all rfl, by norm_num⟩

/-! ### C6 and C7: capacity offers and the budget ≤ wallet invariant -/

theorem find?_map_replace (l : List DonorProfile) (d : DonorProfile)
    (h : l.any (fun x => x.id == d.id)) :
    (l.map (fun x => if x.id == d.id then d else x)).find? (fun x => x.id == d.id) =
      some d := by
  induction l with
  | nil => simp at h
  | cons x t ih =>
    simp only [List.map_cons]
    by_cases hx : (x.id == d.id) = true
    · rw [if_pos hx]
      exact List.find?_cons_of_pos _ (by simp)
    · rw [if_neg hx]
      have hx' : (x.id == d.id) = false := by simpa using hx
      simp only [List.find?_cons, hx']
      apply ih
      simp only [List.any_cons, hx', Bool.false_or] at h
      exact h

theorem find?_append_self (l : List DonorProfile) (d : DonorProfile)
    (h : l.any (fun x => x.id == d.id) = false) :
    (l ++ [d]).find? (fun x => x.id == d.id) = some d := by
  induction l with
  | nil => simp [List.find?]
  | cons x t ih =>
    simp only [List.any_cons, Bool.or_eq_false_iff] at h
    simp only [List.cons_append]
    simp only [List.find?_cons, h.1]
    exact ih h.2

theorem findDonor_setDonor (donors : List DonorProfile) (d : DonorProfile) :
    findDonor (setDonor donors d) d.id = some d := by
  unfold setDonor findDonor
  by_cases h : donors.any (fun x => x.id == d.id)
  · rw [if_pos h]
    exact find?_map_replace donors d h
  · rw [if_neg h]
    exact find?_append_self donors d (by simpa using h)

/-- **C6** (amended) `handleCapacityOffer` upserts the donor — creating it
when unknown, never raising an error — and stores
`allocationBudget = wallet × fraction` with the offered fraction used as
given (default 0.15 when absent): **no clamping to (0, 1] is applied**. -/
theorem C6_capacity_offer_upsert_unclamped
    (st : AgentState) (msg : CapacityOfferMsg) (now : ℕ) :
    findDonor (recordCapacityOffer st msg now).donors msg.donorId =
      some (mkDonor msg now) ∧
    (mkDonor msg now).allocationBudget = msg.wallet * offerFraction msg := by
  constructor
  · exact findDonor_setDonor st.donors (mkDonor msg now)
  · rfl

/-- An `offer_capacity` message with fraction 2, outside (0, 1]. -/
def overOfferMsg : CapacityOfferMsg :=
  { donorId := "dave", wallet := 100, allocationPercentage := some 2,
    preferences := [] }

/-- **C6** counterexample: the offer with fraction 2 is stored unclamped —
the resulting budget is wallet × 2 = 200, a value no fraction in (0, 1]
could produce from wallet 100. -/
theorem C6_counterexample :
    ((recordCapacityOffer emptyState overOfferMsg 0).donors.map
      (fun d => (d.id, d.wallet, d.allocationBudget))) = [("dave", 100, 200)] ∧
    ¬ ∃ f : ℚ, 0 < f ∧ f ≤ 1 ∧ (200 : ℚ) = 100 * f := by
  constructor
  · with_unfolding_all rfl
  · rintro ⟨f, _hf0, hf1, heq⟩
    have hf2 : f = 2 := by linarith
    rw [hf2] at hf1
    norm_num at hf1

/-- **C7** counterexample: after the full `offer_capacity` operation with
fraction 2, the stored donor has allocationBudget 200 > wallet 100 — the
claimed invariant `allocationBudget ≤ wallet` is violated because the
fraction is never clamped. -/
theorem C7_counterexample :
    ((handleCapacityOffer emptyState overOfferMsg 0).1.donors.map
      (fun d => (d.wallet, d.allocationBudget))) = [((100 : ℚ), (200 : ℚ))] ∧
    ¬ ((200 : ℚ) ≤ 100) :=
  ⟨by with_unfolding_all rfl, by norm_num⟩

/-- The invariant of claim C7: every stored donor's budget is at most its
wallet. -/
def BudgetInv (st : AgentState) : Prop :=
  ∀ d ∈ st.donors, d.allocationBudget ≤ d.wallet

theorem foldl_preserve {α β : Type} (P : α → Prop) (f : α → β → α) (l : List β)
    (a : α) (hstep : ∀ x b, P x → P (f x b)) (ha : P a) : P (l.foldl f a) := by
  induction l generalizing a with
  | nil => exact ha
  | cons b t ih => exact ih _ (hstep a b ha)

/-- Let-free unfolding of `evaluateAllocations`. -/
theorem evaluateAllocations_eq (st : AgentState) (now : ℕ) :
    evaluateAllocations st now =
      if st.isProcessing || st.donors.isEmpty || st.causes.isEmpty then
        (st, .skipped)
      else if calculateConfidence st.causes (calculateAllocations st.donors st.causes) <
            7/10 || detectMajorReallocation (calculateAllocations st.donors st.causes) then
        (conveneCouncil st,
          .councilConvened (calculateAllocations st.donors st.causes)
            (calculateConfidence st.causes (calculateAllocations st.donors st.causes)))
      else
        ((executeAllocations st (calculateAllocations st.donors st.causes) now).state,
          .executed (executeAllocations st (calculateAllocations st.donors st.causes)
            now).events) := rfl

/-- Let-free unfolding of `handleCouncilInsight`. -/
theorem handleCouncilInsight_eq (st : AgentState) (ins : Insight) (now : ℕ) :
    handleCouncilInsight st ins now =
      if st.councilActive = false then (st, none)
      else if 3 ≤ (st.councilInsights ++ [ins]).length then
        ({ (executeAllocations { st with councilInsights := st.councilInsights ++ [ins] }
              (synthesizeCouncilDecision (calculateAllocations st.donors st.causes)
                (st.councilInsights ++ [ins])) now).state with
            councilActive := false, councilInsights := [] },
          some (executeAllocations { st with councilInsights := st.councilInsights ++ [ins] }
              (synthesizeCouncilDecision (calculateAllocations st.donors st.causes)
                (st.councilInsights ++ [ins])) now).events)
      else ({ st with councilInsights := st.councilInsights ++ [ins] }, none) := rfl

theorem execPair_budgetInv {alloc : Alloc} {now : ℕ} {donorId : String}
    {acc : CreditAcc} {q : String × ℚ} (h : BudgetInv acc.state) :
    BudgetInv (execPair alloc now donorId acc q).state := by
  unfold execPair
  split
  · split
    · exact h
    · intro d' hd'
      simp only [updateDonor, List.mem_map] at hd'
      rcases hd' with ⟨y, hy, rfl⟩
      by_cases hid : (y.id == donorId) = true
      · rw [if_pos hid]
        have hb := h y hy
        show y.allocationBudget - q.2 ≤ y.wallet - q.2
        linarith
      · rw [if_neg hid]
        exact h y hy
  · exact h

theorem creditCtx_budgetInv {st : AgentState} {ctx batch : Alloc} {now : ℕ}
    (h : BudgetInv st) : BudgetInv (creditAllocationsCtx st ctx batch now).state := by
  unfold creditAllocationsCtx
  apply foldl_preserve (fun acc : CreditAcc => BudgetInv acc.state)
  · intro acc p hacc
    unfold execRow
    split
    · exact hacc
    · apply foldl_preserve (fun acc : CreditAcc => BudgetInv acc.state)
      · intro a q ha
        exact execPair_budgetInv ha
      · exact hacc
  · exact h

theorem executeAllocations_budgetInv {st : AgentState} {alloc : Alloc} {now : ℕ}
    (h : BudgetInv st) : BudgetInv (executeAllocations st alloc now).state := by
  intro d hd
  exact @creditCtx_budgetInv st alloc alloc now h d hd

theorem evaluateAllocations_budgetInv {st : AgentState} {now : ℕ}
    (h : BudgetInv st) : BudgetInv (evaluateAllocations st now).1 := by
  rw [evaluateAllocations_eq]
  split
  · exact h
  · split
    · exact h
    · exact executeAllocations_budgetInv h

theorem setDonor_budgetInv {donors : List DonorProfile} {d : DonorProfile}
    (h : ∀ x ∈ donors, x.allocationBudget ≤ x.wallet)
    (hd : d.allocationBudget ≤ d.wallet) :
    ∀ x ∈ setDonor donors d, x.allocationBudget ≤ x.wallet := by
  intro x hx
  unfold setDonor at hx
  split at hx
  · rcases List.mem_map.mp hx with ⟨y, hy, rfl⟩
    split
    · exact hd
    · exact h y hy
  · rcases List.mem_append.mp hx with hx | hx
    · exact h x hx
    · simp only [List.mem_singleton] at hx
      subst hx
      exact hd

theorem handleCapacityOffer_budgetInv {st : AgentState} {msg : CapacityOfferMsg}
    {now : ℕ} (hf : offerFraction msg ≤ 1) (hw : 0 ≤ msg.wallet)
    (h : BudgetInv st) : BudgetInv (handleCapacityOffer st msg now).1 := by
  apply evaluateAllocations_budgetInv
  intro x hx
  exact setDonor_budgetInv h (mul_le_of_le_one_right hw hf) x hx

theorem handleNeedRegistration_budgetInv {st : AgentState}
    {msg : NeedRegistrationMsg} {now : ℕ} (h : BudgetInv st) :
    BudgetInv (handleNeedRegistration st msg now).1 :=
  evaluateAllocations_budgetInv h

theorem handlePreferenceUpdate_budgetInv {st : AgentState} {donorId : String}
    {prefs : List (String × ℚ)} {now : ℕ} (h : BudgetInv st) :
    BudgetInv (handlePreferenceUpdate st donorId prefs now).1 := by
  unfold handlePreferenceUpdate
  split
  · exact h
  · apply evaluateAllocations_budgetInv
    intro x hx
    simp only [updateDonor, List.mem_map] at hx
    rcases hx with ⟨y, hy, rfl⟩
    split
    · exact h y hy
    · exact h y hy

theorem handleCouncilInsight_budgetInv {st : AgentState} {ins : Insight} {now : ℕ}
    (h : BudgetInv st) : BudgetInv (handleCouncilInsight st ins now).1 := by
  rw [handleCouncilInsight_eq]
  split
  · exact h
  · split
    · intro d hd
      have hd' : d ∈ (executeAllocations
          { st with councilInsights := st.councilInsights ++ [ins] }
          (synthesizeCouncilDecision (calculateAllocations st.donors st.causes)
            (st.councilInsights ++ [ins])) now).state.donors := hd
      exact @executeAllocations_budgetInv
        { st with councilInsights := st.councilInsights ++ [ins] }
        (synthesizeCouncilDecision (calculateAllocations st.donors st.causes)
          (st.councilInsights ++ [ins])) now h d hd'
    · exact h

/-- Constraint of the amended claim C7: capacity offers carry a fraction
at most 1 and a non-negative wallet. -/
def OfferOk : Op → Prop
  | .offer msg => offerFraction msg ≤ 1 ∧ 0 ≤ msg.wallet
  | _ => True

/-- **C7** (amended) Provided every `offer_capacity` message uses a fraction
≤ 1 and a non-negative wallet, the invariant `allocationBudget ≤ wallet` for
every stored donor is preserved by every engine operation (capacity offer,
need registration, preference update, council insight — the latter two
covering evaluation, synthesis and commit).  Without that proviso the code
violates the invariant, since it never clamps the fraction (see the
counterexample). -/
theorem C7_step_preserves_budget_le_wallet (st : AgentState) (op : Op) (now : ℕ)
    (hop : OfferOk op) (hinv : BudgetInv st) : BudgetInv (step st op now) := by
  cases op with
  | offer msg => exact handleCapacityOffer_budgetInv hop.1 hop.2 hinv
  | needReg msg => exact handleNeedRegistration_budgetInv hinv
  | prefUpdate d p => exact handlePreferenceUpdate_budgetInv hinv
  | insight i => exact handleCouncilInsight_budgetInv hinv

/-- A well-formed capacity offer: wallet 150, fraction 0.2. -/
def normalOfferMsg : CapacityOfferMsg :=
  { donorId := "alice", wallet := 150, allocationPercentage := some (1/5),
    preferences := [("climate", 4/5)] }

theorem C7_witness :
    (OfferOk (Op.offer normalOfferMsg) ∧ BudgetInv emptyState) ∧
    BudgetInv (step emptyState (Op.offer normalOfferMsg) 0) := by
  have hok : OfferOk (Op.offer normalOfferMsg) := by
    constructor
    · norm_num [offerFraction, normalOfferMsg]
    · norm_num [normalOfferMsg]
  have hinv : BudgetInv emptyState := by
    intro d hd
    simp [emptyState] at hd
  exact ⟨⟨hok, hinv⟩, C7_step_preserves_budget_le_wallet emptyState _ 0 hok hinv⟩

/-! ### C2: the escalation decision -/

/-- **C2** For every evaluation cycle that actually runs (no reentrancy
guard, at least one donor and one cause), the fresh proposal is executed
if and only if its confidence is ≥ 0.7 and no single (donor, cause) amount
exceeds 30% of total volume; otherwise the cycle convenes a Council —
broadcasting the proposal context and requesting insights — and executes
nothing. -/
theorem C2_evaluate_threshold_and_concentration (st : AgentState) (now : ℕ)
    (h1 : st.isProcessing = false) (h2 : st.donors.isEmpty = false)
    (h3 : st.causes.isEmpty = false) :
    ((∃ evs, (evaluateAllocations st now).2 = .executed evs) ↔
      (7/10 ≤ calculateConfidence st.causes (calculateAllocations st.donors st.causes) ∧
        detectMajorReallocation (calculateAllocations st.donors st.causes) = false)) ∧
    ((7/10 ≤ calculateConfidence st.causes (calculateAllocations st.donors st.causes) ∧
        detectMajorReallocation (calculateAllocations st.donors st.causes) = false) →
      evaluateAllocations st now =
        ((executeAllocations st (calculateAllocations st.donors st.causes) now).state,
          .executed (executeAllocations st (calculateAllocations st.donors st.causes)
            now).events)) ∧
    (¬ (7/10 ≤ calculateConfidence st.causes (calculateAllocations st.donors st.causes) ∧
        detectMajorReallocation (calculateAllocations st.donors st.causes) = false) →
      evaluateAllocations st now =
        (conveneCouncil st,
          .councilConvened (calculateAllocations st.donors st.causes)
            (calculateConfidence st.causes (calculateAllocations st.donors st.causes)))) := by
  rw [evaluateAllocations_eq, h1, h2, h3]
  simp only [Bool.false_or, Bool.false_eq_true, if_false]
  by_cases hlt : calculateConfidence st.causes (calculateAllocations st.donors st.causes) < 7/10
  · rw [if_pos (by simp [hlt])]
    refine ⟨?_, ?_, ?_⟩
    · constructor
      · rintro ⟨evs, hevs⟩
        simp at hevs
      · rintro ⟨hge, _⟩
        exact absurd hlt (not_lt.mpr hge)
    · rintro ⟨hge, _⟩
      exact absurd hlt (not_lt.mpr hge)
    · intro _
      rfl
  · cases hdet : detectMajorReallocation (calculateAllocations st.donors st.causes) with
    | true =>
      rw [if_pos (by simp [hdet])]
      refine ⟨?_, ?_, ?_⟩
      · constructor
        · rintro ⟨evs, hevs⟩
          simp at hevs
        · rintro ⟨_, hdf⟩
          cases hdf
      · rintro ⟨_, hdf⟩
        cases hdf
      · intro _
        rfl
    | false =>
      rw [if_neg (by simp [hlt, hdet])]
      refine ⟨?_, ?_, ?_⟩
      · constructor
        · intro _
          exact ⟨not_lt.mp hlt, rfl⟩
        · intro _
          exact ⟨_, rfl⟩
      · intro _
        rfl
      · intro hn
        exact absurd ⟨not_lt.mp hlt, rfl⟩ hn

/-- Scenario B's cause: need reduced to 20. -/
def climateC20 : CauseProfile := { climateC with need := 20 }

/-- Scenario B's state: alice (budget 30) and a cause needing 20. -/
def scenarioBState : AgentState :=
  { donors := [aliceD], causes := [climateC20], allocationHistory := [],
    isProcessing := false, councilActive := false, councilInsights := [] }

theorem C2_witness :
    (scenarioBState.isProcessing = false ∧ scenarioBState.donors.isEmpty = false ∧
      scenarioBState.causes.isEmpty = false) ∧
    (((∃ evs, (evaluateAllocations scenarioBState 0).2 = .executed evs) ↔
      (7/10 ≤ calculateConfidence scenarioBState.causes
          (calculateAllocations scenarioBState.donors scenarioBState.causes) ∧
        detectMajorReallocation
          (calculateAllocations scenarioBState.donors scenarioBState.causes) = false)) ∧
    ((7/10 ≤ calculateConfidence scenarioBState.causes
          (calculateAllocations scenarioBState.donors scenarioBState.causes) ∧
        detectMajorReallocation
          (calculateAllocations scenarioBState.donors scenarioBState.causes) = false) →
      evaluateAllocations scenarioBState 0 =
        ((executeAllocations scenarioBState
            (calculateAllocations scenarioBState.donors scenarioBState.causes) 0).state,
          .executed (executeAllocations scenarioBState
            (calculateAllocations scenarioBState.donors scenarioBState.causes) 0).events)) ∧
    (¬ (7/10 ≤ calculateConfidence scenarioBState.causes
          (calculateAllocations scenarioBState.donors scenarioBState.causes) ∧
        detectMajorReallocation
          (calculateAllocations scenarioBState.donors scenarioBState.causes) = false) →
      evaluateAllocations scenarioBState 0 =
        (conveneCouncil scenarioBState,
          .councilConvened
            (calculateAllocations scenarioBState.donors scenarioBState.causes)
            (calculateConfidence scenarioBState.causes
              (calculateAllocations scenarioBState.donors scenarioBState.causes))))) :=
  ⟨⟨rfl, rfl, rfl⟩, C2_evaluate_threshold_and_concentration scenarioBState 0 rfl rfl rfl⟩

/-! ### C8: silent skip of stale (donor, cause) references -/

theorem execPair_ids (ctx : Alloc) (now : ℕ) (donorId : String)
    (acc : CreditAcc) (q : String × ℚ) :
    (execPair ctx now donorId acc q).state.donors.map (·.id) =
      acc.state.donors.map (·.id) ∧
    (execPair ctx now donorId acc q).state.causes.map (·.id) =
      acc.state.causes.map (·.id) := by
  unfold execPair
  split
  · split
    · exact ⟨rfl, rfl⟩
    · constructor
      · simp only [updateDonor, List.map_map]
        apply List.map_congr_left
        intro d _
        by_cases hid : (d.id == donorId) = true
        · rw [Function.comp_apply, if_pos hid]
        · rw [Function.comp_apply, if_neg hid]
      · simp only [updateCause, List.map_map]
        apply List.map_congr_left
        intro c _
        by_cases hid : (c.id == q.1) = true
        · rw [Function.comp_apply, if_pos hid]
        · rw [Function.comp_apply, if_neg hid]
  · exact ⟨rfl, rfl⟩

theorem foldl_execPair_ids (ctx : Alloc) (now : ℕ) (did : String)
    (r : List (String × ℚ)) (acc : CreditAcc) :
    ((r.foldl (execPair ctx now did) acc).state.donors.map (·.id) =
      acc.state.donors.map (·.id)) ∧
    ((r.foldl (execPair ctx now did) acc).state.causes.map (·.id) =
      acc.state.causes.map (·.id)) := by
  apply foldl_preserve (fun x : CreditAcc =>
    x.state.donors.map (·.id) = acc.state.donors.map (·.id) ∧
    x.state.causes.map (·.id) = acc.state.causes.map (·.id))
  · intro x q hx
    have h := execPair_ids ctx now did x q
    exact ⟨h.1.trans hx.1, h.2.trans hx.2⟩
  · exact ⟨rfl, rfl⟩

/-- Unfolding of `execRow` at an explicit pair. -/
theorem execRow_eq (ctx : Alloc) (now : ℕ) (acc : CreditAcc) (did : String)
    (row : List (String × ℚ)) :
    execRow ctx now acc (did, row) =
      match findDonor acc.state.donors did with
      | none => acc
      | some _ => row.foldl (execPair ctx now did) acc := rfl

theorem execRow_ids (ctx : Alloc) (now : ℕ) (acc : CreditAcc)
    (p : String × List (String × ℚ)) :
    ((execRow ctx now acc p).state.donors.map (·.id) =
      acc.state.donors.map (·.id)) ∧
    ((execRow ctx now acc p).state.causes.map (·.id) =
      acc.state.causes.map (·.id)) := by
  unfold execRow
  split
  · exact ⟨rfl, rfl⟩
  · exact foldl_execPair_ids ctx now p.1 p.2 acc

theorem creditCtx_ids (st : AgentState) (ctx batch : Alloc) (now : ℕ) :
    ((creditAllocationsCtx st ctx batch now).state.donors.map (·.id) =
      st.donors.map (·.id)) ∧
    ((creditAllocationsCtx st ctx batch now).state.causes.map (·.id) =
      st.causes.map (·.id)) := by
  unfold creditAllocationsCtx
  apply foldl_preserve (fun x : CreditAcc =>
    x.state.donors.map (·.id) = st.donors.map (·.id) ∧
    x.state.causes.map (·.id) = st.causes.map (·.id))
  · intro x p hx
    have h := execRow_ids ctx now x p
    exact ⟨h.1.trans hx.1, h.2.trans hx.2⟩
  · exact ⟨rfl, rfl⟩

theorem findDonor_eq_none_of_ids {l l' : List DonorProfile} {id : String}
    (hids : l'.map (·.id) = l.map (·.id)) (h : findDonor l id = none) :
    findDonor l' id = none := by
  unfold findDonor at h ⊢
  rw [List.find?_eq_none] at h ⊢
  intro x hx
  have hmem : x.id ∈ l.map (·.id) := by
    rw [← hids]
    exact List.mem_map_of_mem _ hx
  rcases List.mem_map.mp hmem with ⟨y, hy, hxy⟩
  intro hc
  exact h y hy (by rw [hxy]; exact hc)

theorem findCause_eq_none_of_ids {l l' : List CauseProfile} {id : String}
    (hids : l'.map (·.id) = l.map (·.id)) (h : findCause l id = none) :
    findCause l' id = none := by
  unfold findCause at h ⊢
  rw [List.find?_eq_none] at h ⊢
  intro x hx
  have hmem : x.id ∈ l.map (·.id) := by
    rw [← hids]
    exact List.mem_map_of_mem _ hx
  rcases List.mem_map.mp hmem with ⟨y, hy, hxy⟩
  intro hc
  exact h y hy (by rw [hxy]; exact hc)

theorem execRow_skip {ctx : Alloc} {now : ℕ} {acc : CreditAcc} {g : String}
    {row : List (String × ℚ)} (h : findDonor acc.state.donors g = none) :
    execRow ctx now acc (g, row) = acc := by
  rw [execRow_eq, h]

theorem execPair_skip_cause {ctx : Alloc} {now : ℕ} {did : String}
    {acc : CreditAcc} {c : String} {a : ℚ}
    (h : findCause acc.state.causes c = none) :
    execPair ctx now did acc (c, a) = acc := by
  unfold execPair
  cases hfd : findDonor acc.state.donors did with
  | none => rfl
  | some d =>
    rw [show findCause acc.state.causes (c, a).1 = none from h]

theorem execRow_skip_pair (ctx : Alloc) (now : ℕ) (acc : CreditAcc) (d' : String)
    (r1 r2 : List (String × ℚ)) (c : String) (a : ℚ)
    (h : findCause acc.state.causes c = none) :
    execRow ctx now acc (d', r1 ++ (c, a) :: r2) =
      execRow ctx now acc (d', r1 ++ r2) := by
  rw [execRow_eq, execRow_eq]
  cases hfd : findDonor acc.state.donors d' with
  | none => rfl
  | some d =>
    have hmiss : findCause (r1.foldl (execPair ctx now d') acc).state.causes c = none :=
      findCause_eq_none_of_ids (foldl_execPair_ids ctx now d' r1 acc).2 h
    rw [List.foldl_append, List.foldl_cons, List.foldl_append,
      execPair_skip_cause hmiss]

theorem creditCtx_skip_row (st : AgentState) (ctx : Alloc) (now : ℕ)
    (pre post : Alloc) (g : String) (row : List (String × ℚ))
    (h : findDonor st.donors g = none) :
    creditAllocationsCtx st ctx (pre ++ (g, row) :: post) now =
      creditAllocationsCtx st ctx (pre ++ post) now := by
  have hmiss : findDonor (creditAllocationsCtx st ctx pre now).state.donors g = none :=
    findDonor_eq_none_of_ids (creditCtx_ids st ctx pre now).1 h
  have e1 : creditAllocationsCtx st ctx (pre ++ (g, row) :: post) now =
      post.foldl (execRow ctx now)
        (execRow ctx now (creditAllocationsCtx st ctx pre now) (g, row)) := by
    unfold creditAllocationsCtx
    rw [List.foldl_append, List.foldl_cons]
  have e2 : creditAllocationsCtx st ctx (pre ++ post) now =
      post.foldl (execRow ctx now) (creditAllocationsCtx st ctx pre now) := by
    unfold creditAllocationsCtx
    rw [List.foldl_append]
  rw [e1, e2, execRow_skip hmiss]

theorem creditCtx_skip_pair (st : AgentState) (ctx : Alloc) (now : ℕ)
    (pre post : Alloc) (d' : String) (r1 r2 : List (String × ℚ))
    (c : String) (a : ℚ) (h : findCause st.causes c = none) :
    creditAllocationsCtx st ctx (pre ++ (d', r1 ++ (c, a) :: r2) :: post) now =
      creditAllocationsCtx st ctx (pre ++ (d', r1 ++ r2) :: post) now := by
  have hmiss : findCause (creditAllocationsCtx st ctx pre now).state.causes c = none :=
    findCause_eq_none_of_ids (creditCtx_ids st ctx pre now).2 h
  have e1 : creditAllocationsCtx st ctx (pre ++ (d', r1 ++ (c, a) :: r2) :: post) now =
      post.foldl (execRow ctx now)
        (execRow ctx now (creditAllocationsCtx st ctx pre now) (d', r1 ++ (c, a) :: r2)) := by
    unfold creditAllocationsCtx
    rw [List.foldl_append, List.foldl_cons]
  have e2 : creditAllocationsCtx st ctx (pre ++ (d', r1 ++ r2) :: post) now =
      post.foldl (execRow ctx now)
        (execRow ctx now (creditAllocationsCtx st ctx pre now) (d', r1 ++ r2)) := by
    unfold creditAllocationsCtx
    rw [List.foldl_append, List.foldl_cons]
  rw [e1, e2, execRow_skip_pair ctx now _ d' r1 r2 c a hmiss]

/-- **C8** A (donor, cause) pair of a committed batch whose donor id or
cause id is no longer in the ledger is skipped silently: removing the stale
row (resp. the stale pair from its row) from the processed batch changes
nothing — same final state, same events, same notifications, same summary
(no event, no whisper, no balance change for the stale pair; no error) —
while every other pair of the batch is still processed and the commit
completes.  The confidence-context matrix `ctx` handed to the recorded
events is held fixed; the third conjunct states that `executeAllocations`
is exactly the context-instantiated commit. -/
theorem C8_commit_silently_skips_missing (st : AgentState) (now : ℕ)
    (ctx pre post : Alloc) (g d' : String) (row r1 r2 : List (String × ℚ))
    (c : String) (a : ℚ) :
    (findDonor st.donors g = none →
      executeAllocationsCtx st ctx (pre ++ (g, row) :: post) now =
        executeAllocationsCtx st ctx (pre ++ post) now) ∧
    (findCause st.causes c = none →
      executeAllocationsCtx st ctx (pre ++ (d', r1 ++ (c, a) :: r2) :: post) now =
        executeAllocationsCtx st ctx (pre ++ (d', r1 ++ r2) :: post) now) ∧
    executeAllocations st (pre ++ (g, row) :: post) now =
      executeAllocationsCtx st (pre ++ (g, row) :: post) (pre ++ (g, row) :: post) now := by
  refine ⟨?_, ?_, rfl⟩
  · intro h
    unfold executeAllocationsCtx
    rw [creditCtx_skip_row st ctx now pre post g row h]
  · intro h
    unfold executeAllocationsCtx
    rw [creditCtx_skip_pair st ctx now pre post d' r1 r2 c a h]

/-! ### C9: frame conditions of a commit -/

/-- What a commit may not change about a donor: identity, preferences,
trust, last activity, and the difference wallet − allocationBudget (wallet
and budget are debited by exactly the same amounts). -/
def DonorFrame (d d' : DonorProfile) : Prop :=
  d'.id = d.id ∧ d'.preferences = d.preferences ∧ d'.trustLevel = d.trustLevel ∧
  d'.lastActivity = d.lastActivity ∧
  d'.wallet - d'.allocationBudget = d.wallet - d.allocationBudget

/-- What a commit may not change about a cause: identity, name, need and
priority. -/
def CauseFrame (c c' : CauseProfile) : Prop :=
  c'.id = c.id ∧ c'.name = c.name ∧ c'.need = c.need ∧ c'.priority = c.priority

theorem donorFrame_refl (d : DonorProfile) : DonorFrame d d :=
  ⟨rfl, rfl, rfl, rfl, rfl⟩

theorem causeFrame_refl (c : CauseProfile) : CauseFrame c c :=
  ⟨rfl, rfl, rfl, rfl⟩

theorem donorFrame_trans {a b c : DonorProfile} (h1 : DonorFrame a b)
    (h2 : DonorFrame b c) : DonorFrame a c := by
  obtain ⟨e1, e2, e3, e4, e5⟩ := h1
  obtain ⟨f1, f2, f3, f4, f5⟩ := h2
  exact ⟨f1.trans e1, f2.trans e2, f3.trans e3, f4.trans e4, f5.trans e5⟩

theorem causeFrame_trans {a b c : CauseProfile} (h1 : CauseFrame a b)
    (h2 : CauseFrame b c) : CauseFrame a c := by
  obtain ⟨e1, e2, e3, e4⟩ := h1
  obtain ⟨f1, f2, f3, f4⟩ := h2
  exact ⟨f1.trans e1, f2.trans e2, f3.trans e3, f4.trans e4⟩

theorem forall2_trans {α : Type} {R : α → α → Prop}
    (htrans : ∀ a b c, R a b → R b c → R a c) :
    ∀ {l1 l2 l3 : List α}, List.Forall₂ R l1 l2 → List.Forall₂ R l2 l3 →
      List.Forall₂ R l1 l3 := by
  intro l1 l2 l3 h12
  induction h12 generalizing l3 with
  | nil => intro h23; cases h23; exact List.Forall₂.nil
  | cons hab h ih =>
    intro h23
    cases h23 with
    | cons hbc h' => exact List.Forall₂.cons (htrans _ _ _ hab hbc) (ih h')

theorem execPair_frame (ctx : Alloc) (now : ℕ) (did : String) (acc : CreditAcc)
    (q : String × ℚ) :
    List.Forall₂ DonorFrame acc.state.donors
      (execPair ctx now did acc q).state.donors ∧
    List.Forall₂ CauseFrame acc.state.causes
      (execPair ctx now did acc q).state.causes := by
  unfold execPair
  split
  · split
    · exact ⟨List.forall₂_same.2 (fun x _ => donorFrame_refl x),
        List.forall₂_same.2 (fun x _ => causeFrame_refl x)⟩
    · constructor
      · apply forall2_map_self
        intro d _
        by_cases hid : (d.id == did) = true
        · rw [if_pos hid]
          exact ⟨rfl, rfl, rfl, rfl, by ring⟩
        · rw [if_neg hid]
          exact donorFrame_refl d
      · apply forall2_map_self
        intro c _
        by_cases hid : (c.id == q.1) = true
        · rw [if_pos hid]
          exact ⟨rfl, rfl, rfl, rfl⟩
        · rw [if_neg hid]
          exact causeFrame_refl c
  · exact ⟨List.forall₂_same.2 (fun x _ => donorFrame_refl x),
      List.forall₂_same.2 (fun x _ => causeFrame_refl x)⟩

theorem creditCtx_frame (st : AgentState) (ctx batch : Alloc) (now : ℕ) :
    List.Forall₂ DonorFrame st.donors
      (creditAllocationsCtx st ctx batch now).state.donors ∧
    List.Forall₂ CauseFrame st.causes
      (creditAllocationsCtx st ctx batch now).state.causes := by
  unfold creditAllocationsCtx
  apply foldl_preserve (fun x : CreditAcc =>
    List.Forall₂ DonorFrame st.donors x.state.donors ∧
    List.Forall₂ CauseFrame st.causes x.state.causes)
  · intro x p hx
    unfold execRow
    split
    · exact hx
    · apply foldl_preserve (fun y : CreditAcc =>
        List.Forall₂ DonorFrame st.donors y.state.donors ∧
        List.Forall₂ CauseFrame st.causes y.state.causes)
      · intro y q hy
        have h := execPair_frame ctx now p.1 y q
        exact ⟨@forall2_trans _ DonorFrame (fun x y z u v => donorFrame_trans u v)
            _ _ _ hy.1 h.1,
          @forall2_trans _ CauseFrame (fun x y z u v => causeFrame_trans u v)
            _ _ _ hy.2 h.2⟩
      · exact hx
  · exact ⟨List.forall₂_same.2 (fun x _ => donorFrame_refl x),
      List.forall₂_same.2 (fun x _ => causeFrame_refl x)⟩

/-- **C9** A commit debits every executed donor's wallet and budget by the
same amounts, so wallet − allocationBudget is unchanged across the batch;
it never adds or removes donors or causes, and it leaves every donor's
preferences, trustLevel and lastActivity, and every cause's id, name, need
and priority untouched. -/
theorem C9_commit_frame (st : AgentState) (alloc : Alloc) (now : ℕ) :
    List.Forall₂ DonorFrame st.donors
      (executeAllocations st alloc now).state.donors ∧
    List.Forall₂ CauseFrame st.causes
      (executeAllocations st alloc now).state.causes := by
  have h := creditCtx_frame st alloc alloc now
  constructor
  · exact h.1
  · have hreset : List.Forall₂ CauseFrame
        (creditAllocationsCtx st alloc alloc now).state.causes
        ((creditAllocationsCtx st alloc alloc now).state.causes.map
          (fun c => { c with received := 0 })) := by
      apply forall2_map_self
      intro c _
      exact ⟨rfl, rfl, rfl, rfl⟩
    exact @forall2_trans _ CauseFrame (fun x y z u v => causeFrame_trans u v) _ _ _ h.2 hreset

/-! ### C10: the council insight protocol -/

theorem handleCouncilInsight_inactive (st : AgentState) (ins : Insight) (now : ℕ)
    (h : st.councilActive = false) : handleCouncilInsight st ins now = (st, none) := by
  rw [handleCouncilInsight_eq, if_pos h]

theorem handleCouncilInsight_accum (st : AgentState) (ins : Insight) (now : ℕ)
    (h : st.councilActive = true) (hlen : st.councilInsights.length + 1 < 3) :
    handleCouncilInsight st ins now =
      ({ st with councilInsights := st.councilInsights ++ [ins] }, none) := by
  rw [handleCouncilInsight_eq, if_neg (by simp [h]),
    if_neg (by simp only [List.length_append, List.length_singleton]; omega)]

theorem handleCouncilInsight_trigger (st : AgentState) (ins : Insight) (now : ℕ)
    (h : st.councilActive = true) (hlen : st.councilInsights.length = 2) :
    handleCouncilInsight st ins now =
      ({ (executeAllocations { st with councilInsights := st.councilInsights ++ [ins] }
            (synthesizeCouncilDecision (calculateAllocations st.donors st.causes)
              (st.councilInsights ++ [ins])) now).state with
          councilActive := false, councilInsights := [] },
        some (executeAllocations { st with councilInsights := st.councilInsights ++ [ins] }
            (synthesizeCouncilDecision (calculateAllocations st.donors st.causes)
              (st.councilInsights ++ [ins])) now).events) := by
  rw [handleCouncilInsight_eq, if_neg (by simp [h]),
    if_pos (by simp only [List.length_append, List.length_singleton]; omega)]

theorem runInsights_inactive (st : AgentState) (now : ℕ)
    (h : st.councilActive = false) :
    ∀ inss, runInsights st inss now = (st, 0) := by
  intro inss
  induction inss with
  | nil => rfl
  | cons i t ih =>
    unfold runInsights
    rw [handleCouncilInsight_inactive st i now h]
    simp only [Option.isSome_none, Bool.false_eq_true, if_false, ih, Nat.zero_add]

/-- **C10** A `council_insight` while no council is active is discarded with
no effect; while active, the first two insights only accumulate, and the
third triggers exactly one execution of the synthesized allocation (blended
against a freshly computed proposal), after which the council is inactive
and the insight buffer is cleared — so a session started with an empty
buffer consumes exactly 3 insights and triggers exactly one execution,
regardless of how many further insights arrive. -/
theorem C10_council_insight_protocol :
    (∀ st ins now, st.councilActive = false →
      handleCouncilInsight st ins now = (st, none)) ∧
    (∀ st ins now, st.councilActive = true → st.councilInsights.length + 1 < 3 →
      handleCouncilInsight st ins now =
        ({ st with councilInsights := st.councilInsights ++ [ins] }, none)) ∧
    (∀ st ins now, st.councilActive = true → st.councilInsights.length = 2 →
      handleCouncilInsight st ins now =
        ({ (executeAllocations { st with councilInsights := st.councilInsights ++ [ins] }
              (synthesizeCouncilDecision (calculateAllocations st.donors st.causes)
                (st.councilInsights ++ [ins])) now).state with
            councilActive := false, councilInsights := [] },
          some (executeAllocations { st with councilInsights := st.councilInsights ++ [ins] }
              (synthesizeCouncilDecision (calculateAllocations st.donors st.causes)
                (st.councilInsights ++ [ins])) now).events) ∧
      (handleCouncilInsight st ins now).1.councilActive = false ∧
      (handleCouncilInsight st ins now).1.councilInsights = []) ∧
    (∀ st inss now, st.councilActive = true → st.councilInsights = [] →
      (runInsights st inss now).2 = if 3 ≤ inss.length then 1 else 0) := by
  refine ⟨handleCouncilInsight_inactive, handleCouncilInsight_accum, ?_, ?_⟩
  · intro st ins now h hlen
    have e := handleCouncilInsight_trigger st ins now h hlen
    refine ⟨e, ?_, ?_⟩
    · rw [e]
    · rw [e]
  · intro st inss now h hins
    have hlen0 : st.councilInsights.length = 0 := by rw [hins]; rfl
    rcases inss with _ | ⟨a, _ | ⟨b, _ | ⟨c, rest⟩⟩⟩
    · rfl
    · unfold runInsights
      rw [handleCouncilInsight_accum st a now h (by omega)]
      simp only [Option.isSome_none, Bool.false_eq_true, if_false]
      rfl
    · unfold runInsights
      rw [handleCouncilInsight_accum st a now h (by omega)]
      simp only
      unfold runInsights
      rw [handleCouncilInsight_accum { st with councilInsights := st.councilInsights ++ [a] }
        b now h (by simp only [List.length_append, List.length_singleton]; omega)]
      simp only [Option.isSome_none, Bool.false_eq_true, if_false]
      rfl
    · have e1 := handleCouncilInsight_accum st a now h (by omega)
      have e2 := handleCouncilInsight_accum
        { st with councilInsights := st.councilInsights ++ [a] } b now h
        (by simp only [List.length_append, List.length_singleton]; omega)
      have e3 := handleCouncilInsight_trigger
        { st with councilInsights := (st.councilInsights ++ [a]) ++ [b] } c now h
        (by simp only [List.length_append, List.length_singleton]; omega)
      unfold runInsights
      rw [e1]
      simp only
      unfold runInsights
      rw [e2]
      simp only
      unfold runInsights
      rw [e3]
      simp only [Option.isSome_none, Option.isSome_some, Bool.false_eq_true, if_false,
        if_true]
      rw [runInsights_inactive _ now rfl rest]
      simp [List.length_cons]

theorem C8_witness :
    (findDonor scenarioState.donors "ghost" = none ∧
      findCause scenarioState.causes "water" = none) ∧
    (executeAllocationsCtx scenarioState [("alice", [("climate", 3)])]
        ([] ++ ("ghost", [("climate", 5)]) :: [("alice", [("climate", 3)])]) 0 =
      executeAllocationsCtx scenarioState [("alice", [("climate", 3)])]
        ([] ++ [("alice", [("climate", 3)])]) 0) ∧
    (executeAllocationsCtx scenarioState [("alice", [("climate", 3)])]
        ([] ++ ("alice", [] ++ ("water", 2) :: [("climate", 3)]) ::
          [("alice", [("climate", 3)])]) 0 =
      executeAllocationsCtx scenarioState [("alice", [("climate", 3)])]
        ([] ++ ("alice", [] ++ [("climate", 3)]) :: [("alice", [("climate", 3)])]) 0) := by
  have hg : findDonor scenarioState.donors "ghost" = none := by with_unfolding_all rfl
  have hc : findCause scenarioState.causes "water" = none := by with_unfolding_all rfl
  have h := C8_commit_silently_skips_missing scenarioState 0 [("alice", [("climate", 3)])]
    [] [("alice", [("climate", 3)])] "ghost" "alice" [("climate", 5)] [] [("climate", 3)]
    "water" 2
  exact ⟨⟨hg, hc⟩, h.1 hg, h.2.1 hc⟩

/-- Sample advisor insights. -/
def insA : Insight :=
  { agent := "Ethics-Agent", reasoning := "fairness", confidence := 17/20,
    recommendations := [("alice", [("climate", 33)])] }

def insB : Insight := { insA with agent := "Impact-Agent" }

def insC : Insight := { insA with agent := "Community-Agent" }

/-- Scenario state with an active council and empty insight buffer. -/
def activeState0 : AgentState := { scenarioState with councilActive := true }

/-- Active council that has already collected two insights. -/
def activeState2 : AgentState := { activeState0 with councilInsights := [insA, insB] }

theorem C10_witness :
    (scenarioState.councilActive = false ∧
      handleCouncilInsight scenarioState insA 0 = (scenarioState, none)) ∧
    (activeState0.councilActive = true ∧ activeState0.councilInsights.length + 1 < 3 ∧
      handleCouncilInsight activeState0 insA 0 =
        ({ activeState0 with
            councilInsights := activeState0.councilInsights ++ [insA] }, none)) ∧
    (activeState2.councilActive = true ∧ activeState2.councilInsights.length = 2 ∧
      (handleCouncilInsight activeState2 insC 0).1.councilActive = false ∧
      (handleCouncilInsight activeState2 insC 0).1.councilInsights = []) ∧
    (activeState0.councilActive = true ∧ activeState0.councilInsights = [] ∧
      (runInsights activeState0 [insA, insB, insC] 0).2 =
        if 3 ≤ ([insA, insB, insC].length) then 1 else 0) := by
  have T := C10_council_insight_protocol
  refine ⟨⟨rfl, T.1 scenarioState insA 0 rfl⟩,
    ⟨rfl, by decide, T.2.1 activeState0 insA 0 rfl (by decide)⟩,
    ⟨rfl, rfl, (T.2.2.1 activeState2 insC 0 rfl rfl).2.1,
      (T.2.2.1 activeState2 insC 0 rfl rfl).2.2⟩,
    ⟨rfl, rfl, T.2.2.2 activeState0 [insA, insB, insC] 0 rfl rfl⟩⟩
